import Mathlib

/-!
Verification of the gokube control-plane core: a shallow embedding of the
pod/node/replicaset data model, the registries, the ReplicaSet controller
reconciliation, the scheduler binding pass, the kubelet pod-status
derivation, and the random name generator, with theorems settling the
specification's claims about them.
-/

namespace GoKube

/-! ## Data model (pkg/api) -/

/-- Pod and node statuses are plain strings in the source (`type PodStatus string`). -/
abbrev PodStatus := String

def PodPending : PodStatus := "Pending"

def PodRunning : PodStatus := "Running"

def PodSucceeded : PodStatus := "Succeeded"

def PodFailed : PodStatus := "Failed"

def PodScheduled : PodStatus := "Scheduled"

abbrev NodeStatus := String

def NodeReady : NodeStatus := "Ready"

/-- `api.Container`: required name and image. -/
structure Container where
  Name : String
  Image : String
  deriving DecidableEq, Repr

/-- `api.ObjectMeta`: minimal metadata shared by every resource. -/
structure ObjectMeta where
  Name : String
  Namespace : String := ""
  UID : String := ""
  ResourceVersion : String := ""
  CreationTimestamp : String := ""
  deriving DecidableEq, Repr

/-- `api.PodSpec`: containers plus the legacy replicas field. -/
structure PodSpec where
  Containers : List Container
  Replicas : Int := 0
  deriving DecidableEq, Repr

/-- `api.Pod`. -/
structure Pod where
  Meta : ObjectMeta
  Spec : PodSpec
  NodeName : String := ""
  Status : PodStatus := ""
  deriving DecidableEq, Repr

/-- `api.NodeSpec`. -/
structure NodeSpec where
  Unschedulable : Bool := false
  ProviderID : String := ""
  deriving DecidableEq, Repr

/-- `api.Node`. -/
structure Node where
  Meta : ObjectMeta
  Spec : NodeSpec := {}
  Status : NodeStatus := ""
  deriving DecidableEq, Repr

instance : Inhabited Node := ⟨{ Meta := { Name := "" } }⟩

/-- `api.PodTemplateSpec`. -/
structure PodTemplateSpec where
  Meta : ObjectMeta := { Name := "" }
  Spec : PodSpec
  deriving DecidableEq, Repr

/-- `api.ReplicaSetSpec`: replicas is an `int32` in Go, embedded as `Int`. -/
structure ReplicaSetSpec where
  Replicas : Int
  Selector : List (String × String) := []
  Template : PodTemplateSpec
  deriving DecidableEq, Repr

/-- `api.ReplicaSetStatus`. -/
structure ReplicaSetStatus where
  Replicas : Int := 0
  FullyLabeledReplicas : Int := 0
  ReadyReplicas : Int := 0
  AvailableReplicas : Int := 0
  deriving DecidableEq, Repr

/-- `api.ReplicaSet`. -/
structure ReplicaSet where
  Meta : ObjectMeta
  Spec : ReplicaSetSpec
  Status : ReplicaSetStatus := {}
  deriving DecidableEq, Repr

/-- `Pod.Validate` (pkg/api/pod.go): struct-tag validation — metadata name
required, containers list non-empty with each container's name and image
required, replicas ≥ 0. -/
def validatePod (p : Pod) : Bool :=
  p.Meta.Name ≠ "" && !p.Spec.Containers.isEmpty &&
    p.Spec.Containers.all (fun c => c.Name ≠ "" && c.Image ≠ "") &&
    decide (0 ≤ p.Spec.Replicas)

/-- `Pod.IsActive`: a pod is active unless it has failed. -/
def Pod.IsActive (p : Pod) : Bool :=
  p.Status ≠ PodFailed

/-- `api.IsOwnedBy`: ownership is name-prefix matching
(`strings.HasPrefix`), embedded over the character lists. -/
def IsOwnedBy (pod : Pod) (meta : ObjectMeta) : Bool :=
  meta.Name.toList.isPrefixOf pod.Meta.Name.toList

/-- `api.IsPodActiveAndOwnedBy`. -/
def IsPodActiveAndOwnedBy (pod : Pod) (meta : ObjectMeta) : Bool :=
  IsOwnedBy pod meta && pod.IsActive

/-! ## Kubelet status derivation (pkg/kubelet) -/

/-- `kubelet.containerState`: the {exists, running, exitCode} triple from
container inspection. -/
structure ContainerState where
  exists_ : Bool
  running : Bool
  exitCode : Int
  deriving DecidableEq, Repr

/-- `kubelet.anyContainerRunning`. -/
def anyContainerRunning : List ContainerState → Bool
  | [] => false
  | s :: rest => if s.running then true else anyContainerRunning rest

/-- `kubelet.allContainersFailed`: false exactly when some existing
container has exit code 0. -/
def allContainersFailed : List ContainerState → Bool
  | [] => true
  | s :: rest =>
      if s.exists_ && s.exitCode == 0 then false else allContainersFailed rest

/-- `kubelet.allContainersSucceeded`. -/
def allContainersSucceeded : List ContainerState → Bool
  | [] => true
  | s :: rest => if s.exitCode != 0 then false else allContainersSucceeded rest

/-- `kubelet.anyContainerExists`. -/
def anyContainerExists : List ContainerState → Bool
  | [] => false
  | s :: rest => if s.exists_ then true else anyContainerExists rest

/-- `kubelet.determinePodStatus`. -/
def determinePodStatus (states : List ContainerState) : PodStatus :=
  if anyContainerRunning states then PodRunning
  else if allContainersFailed states && anyContainerExists states then PodFailed
  else if allContainersSucceeded states then PodSucceeded
  else PodScheduled

/-- The status table of spec §4.6, written exactly as the claim states it:
any running container gives Running; otherwise at least one existing
container with every existing container exiting non-zero gives Failed;
otherwise all containers exiting zero gives Succeeded; otherwise Scheduled. -/
def specStatusTable (states : List ContainerState) : PodStatus :=
  if states.any (fun s => s.running) then PodRunning
  else if states.any (fun s => s.exists_) &&
      states.all (fun s => !s.exists_ || s.exitCode != 0) then PodFailed
  else if states.all (fun s => s.exitCode == 0) then PodSucceeded
  else PodScheduled

/-! ## Name generation (pkg/registry/names/generate.go) -/

def maxNameLength : Nat := 63

def randomLength : Nat := 5

def MaxGeneratedNameLength : Nat := maxNameLength - randomLength

/-- The vowel-free alphabet of `names.String`. -/
def alphanums : String := "bcdfghjklmnpqrstvwxz2456789"

def alphanumsIdxBits : Nat := 5

def maxAlphanumsPerInt : Nat := 63 / alphanumsIdxBits

/-- The loop of `names.String`, fuel-bounded. `r` is the stream of
`rand.Int63()` draws; `k` characters remain to be produced; `draw` indexes
the next draw; `cur` is the current partially-shifted integer; `remaining`
counts extractions left in `cur`. Masking by 31 is `% 32`, shifting right
by 5 bits is `/ 32`. `none` models that the fuel ran out (the Go loop can
spin while the stream keeps producing out-of-range indices). -/
def stringAux (r : Nat → Nat) :
    Nat → Nat → Nat → Nat → Nat → List Char → Option (List Char)
  | 0, _, _, _, _, _ => none
  | fuel + 1, k, draw, cur, remaining, acc =>
      if k = 0 then some acc.reverse
      else if remaining = 0 then
        if h : r draw % 2 ^ alphanumsIdxBits < alphanums.toList.length then
          stringAux r fuel (k - 1) (draw + 1) (r draw / 2 ^ alphanumsIdxBits)
            (maxAlphanumsPerInt - 1)
            (alphanums.toList.get ⟨r draw % 2 ^ alphanumsIdxBits, h⟩ :: acc)
        else
          stringAux r fuel k (draw + 1) (r draw / 2 ^ alphanumsIdxBits)
            (maxAlphanumsPerInt - 1) acc
      else
        if h : cur % 2 ^ alphanumsIdxBits < alphanums.toList.length then
          stringAux r fuel (k - 1) draw (cur / 2 ^ alphanumsIdxBits)
            (remaining - 1)
            (alphanums.toList.get ⟨cur % 2 ^ alphanumsIdxBits, h⟩ :: acc)
        else
          stringAux r fuel k draw (cur / 2 ^ alphanumsIdxBits)
            (remaining - 1) acc

/-- `names.String n`: the first draw and `remaining = maxAlphanumsPerInt`
are set up before the loop. -/
def randString (r : Nat → Nat) (fuel n : Nat) : Option (List Char) :=
  stringAux r fuel n 1 (r 0) maxAlphanumsPerInt []

/-- The base truncation of `GenerateName`. -/
def truncateBase (base : List Char) : List Char :=
  if base.length > MaxGeneratedNameLength then base.take MaxGeneratedNameLength
  else base

/-- The deterministic skeleton of `GenerateName`: truncated base directly
concatenated with a given suffix (no separator is inserted). -/
def generateNameWith (base sfx : String) : String :=
  ⟨truncateBase base.toList ++ sfx.toList⟩

/-- `names.simpleNameGenerator.GenerateName`: truncate the base to 58
characters and append `String(5)`. -/
def GenerateName (r : Nat → Nat) (fuel : Nat) (base : String) : Option String :=
  (randString r fuel randomLength).map fun sfxChars =>
    generateNameWith base ⟨sfxChars⟩

/-- `controller.generatePodNameFromReplicaSet`, with the random 5-char
suffix abstracted into an explicit argument. -/
def generatePodNameFromReplicaSet (replicaSetName : String) (sfx : String) :
    String :=
  generateNameWith replicaSetName sfx

/-! ## Registries over the KV store

The strongly-consistent KV is an external collaborator (its adapter is not
part of the core sources). Modelled from the spec: §4.1 — values live under
per-kind key prefixes so each registry's keyspace is its object's name;
`Get` on a missing key yields NotFound; `Create` and `Update` are
unconditional PUTs; `List` returns everything under the prefix. A
registry's store is therefore a list of objects keyed by metadata name. -/

inductive RegError where
  | alreadyExists
  | invalid
  | notFound
  | noNodesAvailable
  deriving DecidableEq, Repr

/-- KV `Get` on the pod keyspace. -/
def findPod (pods : List Pod) (name : String) : Option Pod :=
  pods.find? fun p => p.Meta.Name == name

/-- KV unconditional PUT on the pod keyspace: replace the entry with the
same name, or append when absent. -/
def putPodByName (pods : List Pod) (pod : Pod) : List Pod :=
  match pods with
  | [] => [pod]
  | p :: rest =>
      if p.Meta.Name == pod.Meta.Name then pod :: rest
      else p :: putPodByName rest pod

/-- `PodRegistry.CreatePod`: existence check, then default an empty status
to Pending, then validate, then store. -/
def createPod (pods : List Pod) (pod : Pod) : Except RegError (List Pod) :=
  if (findPod pods pod.Meta.Name).isSome then .error .alreadyExists
  else
    let pod := if pod.Status = "" then { pod with Status := PodPending } else pod
    if validatePod pod then .ok (pods ++ [pod])
    else .error .invalid

/-- `PodRegistry.UpdatePod`: validate, then unconditional PUT (no
existence check). -/
def updatePod (pods : List Pod) (pod : Pod) : Except RegError (List Pod) :=
  if validatePod pod then .ok (putPodByName pods pod)
  else .error .invalid

/-- `PodRegistry.listPodsByStatus`: list plus in-memory status filter. -/
def listPodsByStatus (pods : List Pod) (status : PodStatus) : List Pod :=
  pods.filter fun p => p.Status == status

/-- `PodRegistry.ListUnassignedPods`. -/
def ListUnassignedPods (pods : List Pod) : List Pod :=
  listPodsByStatus pods PodPending

/-- `PodRegistry.ListPendingPods`. -/
def ListPendingPods (pods : List Pod) : List Pod :=
  listPodsByStatus pods PodPending

/-- KV `Get` on the replicaset keyspace. -/
def findReplicaSet (rss : List ReplicaSet) (name : String) : Option ReplicaSet :=
  rss.find? fun rs => rs.Meta.Name == name

/-- KV unconditional PUT on the replicaset keyspace. -/
def putReplicaSetByName (rss : List ReplicaSet) (rs : ReplicaSet) :
    List ReplicaSet :=
  match rss with
  | [] => [rs]
  | r :: rest =>
      if r.Meta.Name == rs.Meta.Name then rs :: rest
      else r :: putReplicaSetByName rest rs

/-- `ReplicaSetRegistry.Update`: existence check, then PUT. -/
def rsUpdate (rss : List ReplicaSet) (rs : ReplicaSet) :
    Except RegError (List ReplicaSet) :=
  match findReplicaSet rss rs.Meta.Name with
  | none => .error .notFound
  | some _ => .ok (putReplicaSetByName rss rs)

/-- The visible cluster state: the contents of the three keyspaces. -/
structure World where
  pods : List Pod
  replicaSets : List ReplicaSet
  nodes : List Node
  deriving DecidableEq, Repr

/-! ## ReplicaSet controller (pkg/controller, part_004) -/

/-- The pod literal the controller builds for one template container:
name from the generator, a single container, everything else zero-valued. -/
def mkControllerPod (rsName sfx : String) (c : Container) : Pod :=
  { Meta := { Name := generatePodNameFromReplicaSet rsName sfx },
    Spec := { Containers := [c], Replicas := 0 },
    NodeName := "", Status := "" }

/-- The inner loop of `Reconcile`'s creation branch: one `CreatePod` per
template container, threading the suffix-supply index; an error aborts. -/
def createRowPods (rsName : String) (sfx : Nat → String) :
    List Container → Nat → List Pod → Except RegError (List Pod × Nat)
  | [], idx, pods => .ok (pods, idx)
  | c :: rest, idx, pods =>
      match createPod pods (mkControllerPod rsName (sfx idx) c) with
      | .error e => .error e
      | .ok pods1 => createRowPods rsName sfx rest (idx + 1) pods1

/-- The outer loop of `Reconcile`'s creation branch: one row of
per-container creations for each missing replica. -/
def createMissingPods (rsName : String) (cs : List Container)
    (sfx : Nat → String) :
    Nat → Nat → List Pod → Except RegError (List Pod × Nat)
  | 0, idx, pods => .ok (pods, idx)
  | n + 1, idx, pods =>
      match createRowPods rsName sfx cs idx pods with
      | .error e => .error e
      | .ok (pods1, idx1) => createMissingPods rsName cs sfx n idx1 pods1

/-- `ReplicaSetController.Reconcile`: re-fetch the ReplicaSet, count active
owned pods, create the missing ones (or skip deletion in the surplus case),
and write back `status.replicas`. -/
def Reconcile (sfx : Nat → String) (idx : Nat) (rsName : String) (w : World) :
    Except RegError (World × Nat) :=
  match findReplicaSet w.replicaSets rsName with
  | none => .error .notFound
  | some currentRS =>
      let allPods := w.pods
      let activePods :=
        allPods.filter fun p => IsPodActiveAndOwnedBy p currentRS.Meta
      let currentPodCount : Int := activePods.length
      let desiredPodCount : Int := currentRS.Spec.Replicas
      if currentPodCount < desiredPodCount then
        match createMissingPods currentRS.Meta.Name
            currentRS.Spec.Template.Spec.Containers sfx
            (desiredPodCount - currentPodCount).toNat idx w.pods with
        | .error e => .error e
        | .ok (pods1, idx1) =>
            let updatedRS := { currentRS with
              Status := { currentRS.Status with Replicas := desiredPodCount } }
            match rsUpdate w.replicaSets updatedRS with
            | .error e => .error e
            | .ok rss1 => .ok ({ w with pods := pods1, replicaSets := rss1 }, idx1)
      else if currentPodCount > desiredPodCount then
        let updatedRS := { currentRS with
          Status := { currentRS.Status with Replicas := desiredPodCount } }
        match rsUpdate w.replicaSets updatedRS with
        | .error e => .error e
        | .ok rss1 => .ok ({ w with replicaSets := rss1 }, idx)
      else .ok (w, idx)

/-! ## Scheduler (pkg/scheduler/scheduler.go) -/

/-- `nodes[rand.Intn(len(nodes))]`, with the random draw abstracted into
`k`; `Intn` keeps the index in range, embedded as reduction mod the
length. -/
def pickNode (nodes : List Node) (k : Nat) : Node :=
  nodes.getD (k % nodes.length) default

/-- The binding loop of `schedulePendingPods`: assign each pending pod a
node, flip it to Scheduled, persist via `UpdatePod`; an error aborts. -/
def bindLoop (nodes : List Node) (choose : Nat → Nat) :
    List Pod → Nat → List Pod → Except RegError (List Pod)
  | [], _, store => .ok store
  | pod :: rest, i, store =>
      let node := pickNode nodes (choose i)
      let bound := { pod with NodeName := node.Meta.Name, Status := PodScheduled }
      match updatePod store bound with
      | .error e => .error e
      | .ok store1 => bindLoop nodes choose rest (i + 1) store1

/-- `Scheduler.schedulePendingPods`: list pending pods and nodes, fail when
no node exists, otherwise bind every pending pod. -/
def schedulePendingPods (choose : Nat → Nat) (w : World) :
    Except RegError World :=
  let pending := ListPendingPods w.pods
  if w.nodes.length = 0 then .error .noNodesAvailable
  else
    match bindLoop w.nodes choose pending 0 w.pods with
    | .error e => .error e
    | .ok pods1 => .ok { w with pods := pods1 }

/-! ## Pod HTTP handler (part_006) -/

/-- `PodHandler.CreatePod`: the list records every status code the handler
writes, in order; the client observes the first. The AlreadyExists branch
has no `return`, so after writing 409 the handler falls through and also
attempts the 201 success write. -/
def handleCreatePod (w : World) (pod : Pod) : World × List Nat :=
  match createPod w.pods pod with
  | .error .alreadyExists => (w, [409, 201])
  | .error .invalid => (w, [400])
  | .error _ => (w, [500])
  | .ok pods1 => ({ w with pods := pods1 }, [201])

/-! ## Derived forms used by the theorems -/

/-- The ReplicaSet as `Reconcile` writes it back: `status.replicas` set to
the given count. -/
def withStatusReplicas (rs : ReplicaSet) (n : Int) : ReplicaSet :=
  { rs with Status := { rs.Status with Replicas := n } }

/-- A controller-built pod as it lands in the store: `CreatePod` defaults
its empty status to Pending. -/
def storedControllerPod (rsName s : String) (c : Container) : Pod :=
  { mkControllerPod rsName s c with Status := PodPending }

/-- The name the controller generates at position `i` of the suffix
supply. -/
def genSeqName (rsName : String) (sfx : Nat → String) (i : Nat) : String :=
  generatePodNameFromReplicaSet rsName (sfx i)

/-- The pods one pass of the inner creation loop stores: one per template
container, names drawn from consecutive supply positions. -/
def rowPods (rsName : String) (sfx : Nat → String) :
    List Container → Nat → List Pod
  | [], _ => []
  | c :: rest, idx =>
      storedControllerPod rsName (sfx idx) c :: rowPods rsName sfx rest (idx + 1)

/-- The pods the whole creation branch stores: one row per missing
replica. -/
def blockPods (rsName : String) (sfx : Nat → String) (cs : List Container) :
    Nat → Nat → List Pod
  | 0, _ => []
  | n + 1, idx =>
      rowPods rsName sfx cs idx ++ blockPods rsName sfx cs n (idx + cs.length)

/-! ## Concrete sample inputs for the witnesses -/

def rs3 : ReplicaSet :=
  { Meta := { Name := "rs" },
    Spec :=
      { Replicas := 1,
        Template := { Spec := { Containers := [{ Name := "c", Image := "i" }] } } } }

def pod3 : Pod :=
  { Meta := { Name := "rs-abcde" },
    Spec := { Containers := [{ Name := "c", Image := "i" }], Replicas := 0 },
    NodeName := "n1", Status := "Running" }

def world3 : World := { pods := [pod3], replicaSets := [rs3], nodes := [] }

def rs9 : ReplicaSet :=
  { Meta := { Name := "rs" },
    Spec :=
      { Replicas := 0,
        Template := { Spec := { Containers := [{ Name := "c", Image := "i" }] } } },
    Status := { Replicas := 1 } }

def pod9 : Pod :=
  { Meta := { Name := "rs-abcde" },
    Spec := { Containers := [{ Name := "c", Image := "i" }], Replicas := 0 },
    NodeName := "n1", Status := "Running" }

def world9 : World := { pods := [pod9], replicaSets := [rs9], nodes := [] }

def rs2w : ReplicaSet :=
  { Meta := { Name := "rs" },
    Spec :=
      { Replicas := 2,
        Template := { Spec := { Containers :=
          [{ Name := "c1", Image := "i1" }, { Name := "c2", Image := "i2" }] } } } }

def world2w : World := { pods := [], replicaSets := [rs2w], nodes := [] }

def sfx2w : Nat → String := fun i => "s" ++ toString i

def exampleRS : ReplicaSet :=
  { Meta := { Name := "example-replicaset" },
    Spec :=
      { Replicas := 1,
        Template := { Spec := { Containers :=
          [{ Name := "nginx", Image := "nginx:latest" }] } } } }

def exampleWorld : World :=
  { pods := [], replicaSets := [exampleRS], nodes := [] }

def badPod : Pod :=
  { Meta := { Name := "p" },
    Spec := { Containers := [{ Name := "c", Image := "i" }], Replicas := 0 },
    NodeName := "node1", Status := "" }

def storedBadPod : Pod := { badPod with Status := PodPending }

def node4 : Node := { Meta := { Name := "n1" }, Status := NodeReady }

def pendingPod4 : Pod :=
  { Meta := { Name := "pp" },
    Spec := { Containers := [{ Name := "c", Image := "i" }], Replicas := 0 },
    NodeName := "", Status := "Pending" }

def runningPod4 : Pod :=
  { Meta := { Name := "rp" },
    Spec := { Containers := [{ Name := "c", Image := "i" }], Replicas := 0 },
    NodeName := "n1", Status := "Running" }

def world4 : World :=
  { pods := [pendingPod4, runningPod4], replicaSets := [], nodes := [node4] }

def c7c : Container := { Name := "c", Image := "i" }

def boundPod4 : Pod :=
  { pendingPod4 with NodeName := "n1", Status := PodScheduled }

def pod8 : Pod :=
  { Meta := { Name := "p" },
    Spec := { Containers := [{ Name := "c", Image := "i" }], Replicas := 0 },
    NodeName := "", Status := "" }

def world8 : World := { pods := [], replicaSets := [], nodes := [] }

theorem anyContainerRunning_eq (states : List ContainerState) :
    anyContainerRunning states = states.any (fun s => s.running) := by
  induction states with
  | nil => rfl
  | cons s rest ih =>
      simp [anyContainerRunning, List.any_cons, ih]

theorem anyContainerExists_eq (states : List ContainerState) :
    anyContainerExists states = states.any (fun s => s.exists_) := by
  induction states with
  | nil => rfl
  | cons s rest ih =>
      simp [anyContainerExists, List.any_cons, ih]

theorem allContainersFailed_eq (states : List ContainerState) :
    allContainersFailed states
      = states.all (fun s => !s.exists_ || s.exitCode != 0) := by
  induction states with
  | nil => rfl
  | cons s rest ih =>
      simp only [allContainersFailed, List.all_cons]
      by_cases he : s.exists_ <;> by_cases hz : s.exitCode = 0 <;>
        simp [he, hz, ih]

theorem allContainersSucceeded_eq (states : List ContainerState) :
    allContainersSucceeded states = states.all (fun s => s.exitCode == 0) := by
  induction states with
  | nil => rfl
  | cons s rest ih =>
      simp only [allContainersSucceeded, List.all_cons]
      by_cases hz : s.exitCode = 0 <;> simp [hz, ih]

/-- C1: for every list of container states, `determinePodStatus` equals the
§4.6 table — Running if any container runs; else Failed if some container
exists and every existing one exited non-zero; else Succeeded if all
containers have exit code 0; else Scheduled — and the empty list yields
Succeeded. -/
theorem determinePodStatus_matches_spec_table :
    (∀ states : List ContainerState,
        determinePodStatus states = specStatusTable states) ∧
      determinePodStatus [] = PodSucceeded := by
  constructor
  · intro states
    unfold determinePodStatus specStatusTable
    rw [anyContainerRunning_eq, anyContainerExists_eq, allContainersFailed_eq,
      allContainersSucceeded_eq, Bool.and_comm]
  · rfl

/-! ## Store lemmas -/

theorem findReplicaSet_name {rss : List ReplicaSet} {name : String}
    {rs : ReplicaSet} (h : findReplicaSet rss name = some rs) :
    rs.Meta.Name = name := by
  have := List.find?_some h
  exact eq_of_beq this

theorem findPod_eq_none {pods : List Pod} {name : String}
    (h : ∀ p ∈ pods, name ≠ p.Meta.Name) : findPod pods name = none := by
  refine List.find?_eq_none.mpr fun p hp => ?_
  simpa [beq_iff_eq] using fun e => (h p hp) e.symm

/-- C3: once the count of active owned pods equals `spec.replicas`,
`Reconcile` issues no writes at all — the world is returned unchanged, so
in particular no pod is created, no ReplicaSet update happens, and the pod
count cannot increase. -/
theorem reconcile_noop_when_converged (sfx : Nat → String) (idx : Nat)
    (rsName : String) (w : World) (rs : ReplicaSet)
    (hfind : findReplicaSet w.replicaSets rsName = some rs)
    (hcount :
      ((w.pods.filter fun p => IsPodActiveAndOwnedBy p rs.Meta).length : Int)
        = rs.Spec.Replicas) :
    Reconcile sfx idx rsName w = .ok (w, idx) := by
  simp only [Reconcile, hfind]
  rw [← hcount]
  simp

theorem reconcile_noop_when_converged_witness :
    Reconcile (fun _ => "zzzzz") 0 "rs" world3 = .ok (world3, 0) :=
  reconcile_noop_when_converged (fun _ => "zzzzz") 0 "rs" world3 rs3
    (by decide) (by decide)

/-- C9: with more active owned pods than desired, `Reconcile` deletes
nothing and changes no pod; its only write sets the ReplicaSet's
`status.replicas` to the desired count through the ReplicaSet registry. -/
theorem reconcile_surplus_only_updates_status (sfx : Nat → String) (idx : Nat)
    (rsName : String) (w : World) (rs : ReplicaSet)
    (hfind : findReplicaSet w.replicaSets rsName = some rs)
    (hcount : rs.Spec.Replicas <
      ((w.pods.filter fun p => IsPodActiveAndOwnedBy p rs.Meta).length : Int)) :
    Reconcile sfx idx rsName w =
      .ok ({ w with replicaSets := putReplicaSetByName w.replicaSets
                      (withStatusReplicas rs rs.Spec.Replicas) }, idx)
      ∧ ({ w with replicaSets := putReplicaSetByName w.replicaSets
                     (withStatusReplicas rs rs.Spec.Replicas) } : World).pods
        = w.pods := by
  refine ⟨?_, rfl⟩
  have hname : rs.Meta.Name = rsName := findReplicaSet_name hfind
  simp only [Reconcile, hfind]
  rw [if_neg (by omega), if_pos hcount]
  have hfind2 : findReplicaSet w.replicaSets rs.Meta.Name = some rs := by
    rw [hname]; exact hfind
  simp [rsUpdate, hfind2, withStatusReplicas]

theorem reconcile_surplus_only_updates_status_witness :
    Reconcile (fun _ => "zzzzz") 0 "rs" world9 =
      .ok ({ world9 with replicaSets := putReplicaSetByName world9.replicaSets
                           (withStatusReplicas rs9 rs9.Spec.Replicas) }, 0)
      ∧ ({ world9 with replicaSets := putReplicaSetByName world9.replicaSets
                          (withStatusReplicas rs9 rs9.Spec.Replicas) } : World).pods
        = world9.pods :=
  reconcile_surplus_only_updates_status (fun _ => "zzzzz") 0 "rs" world9 rs9
    (by decide) (by decide)

/-- C10: `ListUnassignedPods` and `ListPendingPods` are the same function
on every store state — both return exactly the pods whose status is
Pending, so selection is by status, never by nodeName. -/
theorem listUnassigned_eq_listPending :
    (∀ pods : List Pod, ListUnassignedPods pods = ListPendingPods pods) ∧
      ∀ (pods : List Pod) (p : Pod),
        p ∈ ListUnassignedPods pods ↔ p ∈ pods ∧ p.Status = PodPending := by
  refine ⟨fun pods => rfl, fun pods p => ?_⟩
  simp [ListUnassignedPods, listPodsByStatus, List.mem_filter]

theorem findPod_append_some {pods : List Pod} {q : Pod} {name : String}
    (hq : q.Meta.Name = name) :
    (findPod (pods ++ [q]) name).isSome = true := by
  unfold findPod
  simp only [List.find?_isSome, List.mem_append, List.mem_singleton, beq_iff_eq]
  exact ⟨q, Or.inr rfl, hq⟩

/-- C8: two successive creates of the same pod name yield one success and
one AlreadyExists; at the HTTP surface the first POST answers 201 and the
second answers 409 (the first status written wins). -/
theorem duplicate_create_conflict (w : World) (pod : Pod)
    (habsent : findPod w.pods pod.Meta.Name = none)
    (hvalid : validatePod
      (if pod.Status = "" then { pod with Status := PodPending } else pod)
      = true) :
    (handleCreatePod w pod).2.head? = some 201
    ∧ (handleCreatePod (handleCreatePod w pod).1 pod).2.head? = some 409
    ∧ createPod w.pods pod = .ok (w.pods ++
        [if pod.Status = "" then { pod with Status := PodPending } else pod])
    ∧ createPod (handleCreatePod w pod).1.pods pod = .error .alreadyExists := by
  have hmeta :
      (if pod.Status = "" then { pod with Status := PodPending } else pod).Meta
        = pod.Meta := by
    split <;> rfl
  have h1 : createPod w.pods pod = .ok (w.pods ++
      [if pod.Status = "" then { pod with Status := PodPending } else pod]) := by
    simp [createPod, habsent, hvalid]
  have hw1 : (handleCreatePod w pod).1
      = { w with pods := w.pods ++
          [if pod.Status = "" then { pod with Status := PodPending } else pod] } := by
    simp [handleCreatePod, h1]
  have hsome :
      (findPod ((handleCreatePod w pod).1).pods pod.Meta.Name).isSome = true := by
    rw [hw1]
    exact findPod_append_some (by rw [hmeta])
  have h2 : createPod ((handleCreatePod w pod).1).pods pod
      = .error .alreadyExists := by
    simp [createPod, hsome]
  refine ⟨by simp [handleCreatePod, h1], ?_, h1, h2⟩
  generalize hgen : (handleCreatePod w pod).1 = w1 at h2 ⊢
  simp [handleCreatePod, h2]

theorem duplicate_create_conflict_witness :
    (handleCreatePod world8 pod8).2.head? = some 201
    ∧ (handleCreatePod (handleCreatePod world8 pod8).1 pod8).2.head? = some 409
    ∧ createPod world8.pods pod8 = .ok (world8.pods ++
        [if pod8.Status = "" then { pod8 with Status := PodPending } else pod8])
    ∧ createPod (handleCreatePod world8 pod8).1.pods pod8
      = .error .alreadyExists :=
  duplicate_create_conflict world8 pod8 (by decide) (by decide)

/-- C5 counterexample: reconciling `example-replicaset` (replicas 1, empty
world) with the concrete suffix `bcdfg` creates exactly one pod, named
`example-replicasetbcdfg` — the generator inserts no `"-"` between the
ReplicaSet name and the suffix, so the name does not start with
`example-replicaset-`. -/
theorem created_pod_name_lacks_dash :
    (Reconcile (fun _ => "bcdfg") 0 "example-replicaset" exampleWorld).toOption.map
        (fun pr => pr.1.pods.map fun p => p.Meta.Name)
      = some ["example-replicasetbcdfg"]
    ∧ "example-replicaset-".toList.isPrefixOf
        "example-replicasetbcdfg".toList = false := by
  exact ⟨by decide, by decide⟩

/-- C7 counterexample: the pod registry enforces neither half of the
invariant — `CreatePod` stores a Pending pod whose nodeName is already
`node1`, and `UpdatePod` then happily rewrites that non-empty nodeName to
`node2`. -/
theorem invariant_broken_by_registry_writes :
    createPod [] badPod = .ok [storedBadPod]
    ∧ storedBadPod.Status = PodPending
    ∧ storedBadPod.NodeName = "node1"
    ∧ ¬("node1" : String) = ""
    ∧ updatePod [storedBadPod] { storedBadPod with NodeName := "node2" }
      = .ok [{ storedBadPod with NodeName := "node2" }] := by
  refine ⟨rfl, rfl, rfl, by decide, rfl⟩

/-! ## Creation-branch lemmas -/

theorem rowPods_length (rsName : String) (sfx : Nat → String) :
    ∀ (cs : List Container) (idx : Nat),
      (rowPods rsName sfx cs idx).length = cs.length := by
  intro cs
  induction cs with
  | nil => intro idx; rfl
  | cons c rest ih => intro idx; simp [rowPods, ih]

theorem blockPods_length (rsName : String) (sfx : Nat → String)
    (cs : List Container) :
    ∀ (n idx : Nat),
      (blockPods rsName sfx cs n idx).length = n * cs.length := by
  intro n
  induction n with
  | zero => intro idx; simp [blockPods]
  | succ n ih =>
      intro idx
      simp only [blockPods, List.length_append, rowPods_length, ih]
      ring

theorem rowPods_mem (rsName : String) (sfx : Nat → String) :
    ∀ (cs : List Container) (idx : Nat) (p : Pod),
      p ∈ rowPods rsName sfx cs idx →
      ∃ j, j < cs.length
        ∧ ∃ c ∈ cs, p = storedControllerPod rsName (sfx (idx + j)) c := by
  intro cs
  induction cs with
  | nil => intro idx p hp; simp [rowPods] at hp
  | cons c rest ih =>
      intro idx p hp
      simp only [rowPods, List.mem_cons] at hp
      rcases hp with h | h
      · exact ⟨0, by simp, c, by simp, by simpa using h⟩
      · obtain ⟨j, hj, c1, hc1, he⟩ := ih (idx + 1) p h
        refine ⟨j + 1, by simpa using Nat.succ_lt_succ hj, c1,
          List.mem_cons_of_mem _ hc1, ?_⟩
        have harith : idx + 1 + j = idx + (j + 1) := by omega
        rw [← harith]
        exact he

theorem blockPods_mem (rsName : String) (sfx : Nat → String)
    (cs : List Container) :
    ∀ (n idx : Nat) (p : Pod),
      p ∈ blockPods rsName sfx cs n idx →
      ∃ j, j < n * cs.length
        ∧ ∃ c ∈ cs, p = storedControllerPod rsName (sfx (idx + j)) c := by
  intro n
  induction n with
  | zero => intro idx p hp; simp [blockPods] at hp
  | succ n ih =>
      intro idx p hp
      simp only [blockPods, List.mem_append] at hp
      rcases hp with h | h
      · obtain ⟨j, hj, c, hc, he⟩ := rowPods_mem rsName sfx cs idx p h
        exact ⟨j, Nat.lt_of_lt_of_le hj (by rw [Nat.succ_mul]; omega), c, hc, he⟩
      · obtain ⟨j, hj, c, hc, he⟩ := ih (idx + cs.length) p h
        refine ⟨cs.length + j, by rw [Nat.succ_mul]; omega, c, hc, ?_⟩
        have harith : idx + cs.length + j = idx + (cs.length + j) := by omega
        rw [← harith]
        exact he

theorem createPod_controller_ok (pods : List Pod) (rsName s : String)
    (c : Container)
    (hfresh : ∀ p ∈ pods, generateNameWith rsName s ≠ p.Meta.Name)
    (hname : generateNameWith rsName s ≠ "")
    (hc : c.Name ≠ "" ∧ c.Image ≠ "") :
    createPod pods (mkControllerPod rsName s c)
      = .ok (pods ++ [storedControllerPod rsName s c]) := by
  have h0 : findPod pods (generatePodNameFromReplicaSet rsName s) = none :=
    findPod_eq_none (by
      simpa [generatePodNameFromReplicaSet] using hfresh)
  have hval : validatePod
      { Meta := { Name := generatePodNameFromReplicaSet rsName s },
        Spec := { Containers := [c], Replicas := 0 },
        NodeName := "", Status := PodPending } = true := by
    simp [validatePod, generatePodNameFromReplicaSet, hname, hc.1, hc.2]
  simp [createPod, h0, mkControllerPod, storedControllerPod, hval]

theorem createRowPods_ok (rsName : String) (sfx : Nat → String) :
    ∀ (cs : List Container) (idx : Nat) (pods : List Pod),
      (∀ c ∈ cs, c.Name ≠ "" ∧ c.Image ≠ "") →
      (∀ j, j < cs.length → genSeqName rsName sfx (idx + j) ≠ "") →
      (∀ j, j < cs.length → ∀ p ∈ pods,
        genSeqName rsName sfx (idx + j) ≠ p.Meta.Name) →
      (∀ j, j < cs.length → ∀ j', j' < cs.length → j ≠ j' →
        genSeqName rsName sfx (idx + j) ≠ genSeqName rsName sfx (idx + j')) →
      createRowPods rsName sfx cs idx pods
        = .ok (pods ++ rowPods rsName sfx cs idx, idx + cs.length) := by
  intro cs
  induction cs with
  | nil => intro idx pods _ _ _ _; simp [createRowPods, rowPods]
  | cons c rest ih =>
      intro idx pods hv hn hf hinj
      have hcreate := createPod_controller_ok pods rsName (sfx idx) c
        (by
          have h := hf 0 (by simp)
          simpa [genSeqName, generatePodNameFromReplicaSet] using h)
        (by
          have h := hn 0 (by simp)
          simpa [genSeqName, generatePodNameFromReplicaSet] using h)
        (hv c (List.mem_cons_self _ _))
      have hrest := ih (idx + 1) (pods ++ [storedControllerPod rsName (sfx idx) c])
        (fun c1 hc1 => hv c1 (List.mem_cons_of_mem _ hc1))
        (fun j hj => by
          have h := hn (j + 1) (by simpa using Nat.succ_lt_succ hj)
          rwa [show idx + (j + 1) = idx + 1 + j by omega] at h)
        (fun j hj p hp => by
          rcases List.mem_append.mp hp with h | h
          · have hx := hf (j + 1) (by simpa using Nat.succ_lt_succ hj) p h
            rwa [show idx + (j + 1) = idx + 1 + j by omega] at hx
          · have hpe : p = storedControllerPod rsName (sfx idx) c := by
              simpa using h
            have hx := hinj (j + 1) (by simpa using Nat.succ_lt_succ hj)
              0 (by simp) (by omega)
            rw [show idx + (j + 1) = idx + 1 + j by omega, Nat.add_zero] at hx
            rw [hpe]
            exact hx)
        (fun j hj j' hj' hne => by
          have hx := hinj (j + 1) (by simpa using Nat.succ_lt_succ hj)
            (j' + 1) (by simpa using Nat.succ_lt_succ hj') (by omega)
          rwa [show idx + (j + 1) = idx + 1 + j by omega,
            show idx + (j' + 1) = idx + 1 + j' by omega] at hx)
      simp only [createRowPods, hcreate, hrest]
      have harith : idx + 1 + rest.length = idx + (rest.length + 1) := by omega
      rw [harith]
      simp [rowPods, List.append_assoc]

theorem createMissingPods_ok (rsName : String) (sfx : Nat → String)
    (cs : List Container) (hv : ∀ c ∈ cs, c.Name ≠ "" ∧ c.Image ≠ "") :
    ∀ (n idx : Nat) (pods : List Pod),
      (∀ j, j < n * cs.length → genSeqName rsName sfx (idx + j) ≠ "") →
      (∀ j, j < n * cs.length → ∀ p ∈ pods,
        genSeqName rsName sfx (idx + j) ≠ p.Meta.Name) →
      (∀ j, j < n * cs.length → ∀ j', j' < n * cs.length → j ≠ j' →
        genSeqName rsName sfx (idx + j) ≠ genSeqName rsName sfx (idx + j')) →
      createMissingPods rsName cs sfx n idx pods
        = .ok (pods ++ blockPods rsName sfx cs n idx, idx + n * cs.length) := by
  intro n
  induction n with
  | zero => intro idx pods _ _ _; simp [createMissingPods, blockPods]
  | succ n ih =>
      intro idx pods hn hf hinj
      rw [Nat.succ_mul] at hn hf hinj
      have hrow := createRowPods_ok rsName sfx cs idx pods hv
        (fun j hj => hn j (by omega))
        (fun j hj p hp => hf j (by omega) p hp)
        (fun j hj j' hj' hne => hinj j (by omega) j' (by omega) hne)
      have hblock := ih (idx + cs.length) (pods ++ rowPods rsName sfx cs idx)
        (fun j hj => by
          have h := hn (cs.length + j) (by omega)
          rwa [show idx + (cs.length + j) = idx + cs.length + j by omega] at h)
        (fun j hj p hp => by
          rcases List.mem_append.mp hp with h | h
          · have hx := hf (cs.length + j) (by omega) p h
            rwa [show idx + (cs.length + j) = idx + cs.length + j by omega] at hx
          · obtain ⟨j0, hj0, c0, hc0, he⟩ := rowPods_mem rsName sfx cs idx p h
            have hx := hinj (cs.length + j) (by omega) j0 (by omega) (by omega)
            rw [show idx + (cs.length + j) = idx + cs.length + j by omega] at hx
            rw [he]
            exact hx)
        (fun j hj j' hj' hne => by
          have hx := hinj (cs.length + j) (by omega) (cs.length + j')
            (by omega) (by omega)
          rwa [show idx + (cs.length + j) = idx + cs.length + j by omega,
            show idx + (cs.length + j') = idx + cs.length + j' by omega] at hx)
      simp only [createMissingPods, hrow, hblock]
      have h1 : pods ++ rowPods rsName sfx cs idx
            ++ blockPods rsName sfx cs n (idx + cs.length)
          = pods ++ blockPods rsName sfx cs (n + 1) idx := by
        simp [blockPods, List.append_assoc]
      have h2 : idx + cs.length + n * cs.length = idx + (n + 1) * cs.length := by
        rw [Nat.succ_mul]; omega
      rw [h1, h2]

/-- The creation branch of `Reconcile`, fully characterised: with the
ReplicaSet present, fewer active owned pods than desired, valid template
containers and globally fresh generated names, the run succeeds, appends
exactly the expected block of new pods and writes back the status. -/
theorem reconcile_create_run (sfx : Nat → String) (idx : Nat)
    (rsName : String) (w : World) (rs : ReplicaSet) (nMissing total : Nat)
    (hfind : findReplicaSet w.replicaSets rsName = some rs)
    (hlt : ((w.pods.filter fun p => IsPodActiveAndOwnedBy p rs.Meta).length : Int)
      < rs.Spec.Replicas)
    (hmiss : nMissing = (rs.Spec.Replicas
      - ((w.pods.filter fun p =>
          IsPodActiveAndOwnedBy p rs.Meta).length : Int)).toNat)
    (htotal : total = nMissing * rs.Spec.Template.Spec.Containers.length)
    (hv : ∀ c ∈ rs.Spec.Template.Spec.Containers, c.Name ≠ "" ∧ c.Image ≠ "")
    (hn : ∀ j, j < total → genSeqName rs.Meta.Name sfx (idx + j) ≠ "")
    (hf : ∀ j, j < total → ∀ p ∈ w.pods,
      genSeqName rs.Meta.Name sfx (idx + j) ≠ p.Meta.Name)
    (hinj : ∀ j, j < total → ∀ j', j' < total → j ≠ j' →
      genSeqName rs.Meta.Name sfx (idx + j)
        ≠ genSeqName rs.Meta.Name sfx (idx + j')) :
    Reconcile sfx idx rsName w
      = .ok ({ w with
          pods := w.pods ++ blockPods rs.Meta.Name sfx
            rs.Spec.Template.Spec.Containers nMissing idx,
          replicaSets := putReplicaSetByName w.replicaSets
            (withStatusReplicas rs rs.Spec.Replicas) }, idx + total) := by
  subst hmiss
  subst htotal
  have hcreate := createMissingPods_ok rs.Meta.Name sfx
    rs.Spec.Template.Spec.Containers hv
    ((rs.Spec.Replicas - ((w.pods.filter fun p =>
        IsPodActiveAndOwnedBy p rs.Meta).length : Int)).toNat) idx w.pods
    hn hf hinj
  have hfind2 : findReplicaSet w.replicaSets rs.Meta.Name = some rs := by
    rw [findReplicaSet_name hfind]; exact hfind
  simp only [Reconcile, hfind]
  rw [if_pos hlt]
  rw [hcreate]
  simp [rsUpdate, hfind2, withStatusReplicas]

/-- C2: below the desired count, one `Reconcile` creates, for each of the
`desired − current` missing replicas, one pod per template container —
`(desired − current) × k` pods in total for a `k`-container template —
each new pod carrying exactly one container copied from the template. -/
theorem reconcile_creates_one_pod_per_container (sfx : Nat → String)
    (idx : Nat) (rsName : String) (w : World) (rs : ReplicaSet)
    (nMissing total : Nat)
    (hfind : findReplicaSet w.replicaSets rsName = some rs)
    (hlt : ((w.pods.filter fun p =>
        IsPodActiveAndOwnedBy p rs.Meta).length : Int) < rs.Spec.Replicas)
    (hmiss : nMissing = (rs.Spec.Replicas
      - ((w.pods.filter fun p =>
          IsPodActiveAndOwnedBy p rs.Meta).length : Int)).toNat)
    (htotal : total = nMissing * rs.Spec.Template.Spec.Containers.length)
    (hv : ∀ c ∈ rs.Spec.Template.Spec.Containers, c.Name ≠ "" ∧ c.Image ≠ "")
    (hn : ∀ j, j < total → genSeqName rs.Meta.Name sfx (idx + j) ≠ "")
    (hf : ∀ j, j < total → ∀ p ∈ w.pods,
      genSeqName rs.Meta.Name sfx (idx + j) ≠ p.Meta.Name)
    (hinj : ∀ j, j < total → ∀ j', j' < total → j ≠ j' →
      genSeqName rs.Meta.Name sfx (idx + j)
        ≠ genSeqName rs.Meta.Name sfx (idx + j')) :
    Reconcile sfx idx rsName w
      = .ok ({ w with
          pods := w.pods ++ blockPods rs.Meta.Name sfx
            rs.Spec.Template.Spec.Containers nMissing idx,
          replicaSets := putReplicaSetByName w.replicaSets
            (withStatusReplicas rs rs.Spec.Replicas) }, idx + total)
    ∧ (blockPods rs.Meta.Name sfx
        rs.Spec.Template.Spec.Containers nMissing idx).length
        = nMissing * rs.Spec.Template.Spec.Containers.length
    ∧ ∀ p ∈ blockPods rs.Meta.Name sfx
        rs.Spec.Template.Spec.Containers nMissing idx,
        ∃ c ∈ rs.Spec.Template.Spec.Containers, p.Spec.Containers = [c] := by
  refine ⟨reconcile_create_run sfx idx rsName w rs nMissing total hfind hlt
    hmiss htotal hv hn hf hinj, blockPods_length _ _ _ _ _, ?_⟩
  intro p hp
  obtain ⟨j, hj, c, hc, he⟩ :=
    blockPods_mem rs.Meta.Name sfx _ nMissing idx p hp
  exact ⟨c, hc, by rw [he]; rfl⟩

theorem reconcile_creates_one_pod_per_container_witness :
    Reconcile sfx2w 0 "rs" world2w
      = .ok ({ world2w with
          pods := world2w.pods ++ blockPods rs2w.Meta.Name sfx2w
            rs2w.Spec.Template.Spec.Containers 2 0,
          replicaSets := putReplicaSetByName world2w.replicaSets
            (withStatusReplicas rs2w rs2w.Spec.Replicas) }, 0 + 4)
    ∧ (blockPods rs2w.Meta.Name sfx2w
        rs2w.Spec.Template.Spec.Containers 2 0).length
        = 2 * rs2w.Spec.Template.Spec.Containers.length
    ∧ ∀ p ∈ blockPods rs2w.Meta.Name sfx2w
        rs2w.Spec.Template.Spec.Containers 2 0,
        ∃ c ∈ rs2w.Spec.Template.Spec.Containers, p.Spec.Containers = [c] :=
  reconcile_creates_one_pod_per_container sfx2w 0 "rs" world2w rs2w 2 4
    (by decide) (by decide) (by decide) (by decide) (by decide)
    (by decide) (by decide) (by decide)

/-- C5 (amended): every pod the controller creates for a ReplicaSet is
named by truncating the ReplicaSet name to 58 characters and directly
appending the 5-character suffix — no "-" separator — so the truncated
ReplicaSet name is a prefix of every created pod name. -/
theorem reconcile_created_pod_names (sfx : Nat → String)
    (idx : Nat) (rsName : String) (w : World) (rs : ReplicaSet)
    (nMissing total : Nat)
    (hfind : findReplicaSet w.replicaSets rsName = some rs)
    (hlt : ((w.pods.filter fun p =>
        IsPodActiveAndOwnedBy p rs.Meta).length : Int) < rs.Spec.Replicas)
    (hmiss : nMissing = (rs.Spec.Replicas
      - ((w.pods.filter fun p =>
          IsPodActiveAndOwnedBy p rs.Meta).length : Int)).toNat)
    (htotal : total = nMissing * rs.Spec.Template.Spec.Containers.length)
    (hv : ∀ c ∈ rs.Spec.Template.Spec.Containers, c.Name ≠ "" ∧ c.Image ≠ "")
    (hn : ∀ j, j < total → genSeqName rs.Meta.Name sfx (idx + j) ≠ "")
    (hf : ∀ j, j < total → ∀ p ∈ w.pods,
      genSeqName rs.Meta.Name sfx (idx + j) ≠ p.Meta.Name)
    (hinj : ∀ j, j < total → ∀ j', j' < total → j ≠ j' →
      genSeqName rs.Meta.Name sfx (idx + j)
        ≠ genSeqName rs.Meta.Name sfx (idx + j')) :
    Reconcile sfx idx rsName w
      = .ok ({ w with
          pods := w.pods ++ blockPods rs.Meta.Name sfx
            rs.Spec.Template.Spec.Containers nMissing idx,
          replicaSets := putReplicaSetByName w.replicaSets
            (withStatusReplicas rs rs.Spec.Replicas) }, idx + total)
    ∧ ∀ p ∈ blockPods rs.Meta.Name sfx
        rs.Spec.Template.Spec.Containers nMissing idx,
        ∃ j, j < total
          ∧ p.Meta.Name = generateNameWith rs.Meta.Name (sfx (idx + j))
          ∧ truncateBase rs.Meta.Name.toList <+: p.Meta.Name.toList := by
  refine ⟨reconcile_create_run sfx idx rsName w rs nMissing total hfind hlt
    hmiss htotal hv hn hf hinj, ?_⟩
  intro p hp
  obtain ⟨j, hj, c, hc, he⟩ :=
    blockPods_mem rs.Meta.Name sfx _ nMissing idx p hp
  refine ⟨j, by rw [htotal]; exact hj, by rw [he]; rfl, ?_⟩
  rw [he]
  exact ⟨(sfx (idx + j)).toList, rfl⟩

theorem reconcile_created_pod_names_witness :
    Reconcile sfx2w 0 "rs" world2w
      = .ok ({ world2w with
          pods := world2w.pods ++ blockPods rs2w.Meta.Name sfx2w
            rs2w.Spec.Template.Spec.Containers 2 0,
          replicaSets := putReplicaSetByName world2w.replicaSets
            (withStatusReplicas rs2w rs2w.Spec.Replicas) }, 0 + 4)
    ∧ ∀ p ∈ blockPods rs2w.Meta.Name sfx2w
        rs2w.Spec.Template.Spec.Containers 2 0,
        ∃ j, j < 4
          ∧ p.Meta.Name = generateNameWith rs2w.Meta.Name (sfx2w (0 + j))
          ∧ truncateBase rs2w.Meta.Name.toList <+: p.Meta.Name.toList :=
  reconcile_created_pod_names sfx2w 0 "rs" world2w rs2w 2 4
    (by decide) (by decide) (by decide) (by decide) (by decide)
    (by decide) (by decide) (by decide)

/-! ## Scheduler and invariant lemmas -/

theorem mem_of_mem_putPodByName :
    ∀ {pods : List Pod} {q p : Pod},
      p ∈ putPodByName pods q → p ∈ pods ∨ p = q := by
  intro pods
  induction pods with
  | nil =>
      intro q p hp
      right
      simpa [putPodByName] using hp
  | cons r rest ih =>
      intro q p hp
      simp only [putPodByName] at hp
      by_cases h : (r.Meta.Name == q.Meta.Name) = true
      · rw [if_pos h] at hp
        rcases List.mem_cons.mp hp with h1 | h1
        · exact Or.inr h1
        · exact Or.inl (List.mem_cons_of_mem _ h1)
      · rw [if_neg h] at hp
        rcases List.mem_cons.mp hp with h1 | h1
        · exact Or.inl (h1 ▸ List.mem_cons_self _ _)
        · rcases ih h1 with h2 | h2
          · exact Or.inl (List.mem_cons_of_mem _ h2)
          · exact Or.inr h2

theorem bindLoop_mem_scheduled (nodes : List Node) (choose : Nat → Nat) :
    ∀ (todo : List Pod) (i : Nat) (store store1 : List Pod),
      bindLoop nodes choose todo i store = .ok store1 →
      ∀ p ∈ store1, p ∈ store ∨ p.Status = PodScheduled := by
  intro todo
  induction todo with
  | nil =>
      intro i store store1 h p hp
      simp only [bindLoop] at h
      injection h with h
      exact Or.inl (h ▸ hp)
  | cons pod rest ih =>
      intro i store store1 h p hp
      simp only [bindLoop] at h
      generalize hb : ({ pod with
        NodeName := (pickNode nodes (choose i)).Meta.Name,
        Status := PodScheduled } : Pod) = bound at h
      have hbs : bound.Status = PodScheduled := by rw [← hb]
      cases hupd : updatePod store bound with
      | error e => rw [hupd] at h; cases h
      | ok store2 =>
          rw [hupd] at h
          have hstore2 : store2 = putPodByName store bound := by
            unfold updatePod at hupd
            split at hupd
            · injection hupd with hx; exact hx.symm
            · cases hupd
          rcases ih (i + 1) store2 store1 h p hp with h1 | h1
          · rw [hstore2] at h1
            rcases mem_of_mem_putPodByName h1 with h2 | h2
            · exact Or.inl h2
            · exact Or.inr (h2 ▸ hbs)
          · exact Or.inr h1

/-- C7 (amended): the controller stores every pod it creates with status
Pending and empty nodeName — so the invariant holds at controller creation
— and every pod the scheduler's binding loop writes has status Scheduled,
so the scheduler never produces a Pending pod with a nodeName and never
touches non-Pending pods' bindings. (The registry itself enforces
neither half of the invariant; see the counterexample.) -/
theorem invariant_holds_for_controller_and_scheduler
    (pods pods1 : List Pod) (rsName s : String) (c : Container)
    (nodes : List Node) (choose : Nat → Nat) (todo : List Pod) (i : Nat)
    (store store1 : List Pod)
    (hc : createPod pods (mkControllerPod rsName s c) = .ok pods1)
    (hb : bindLoop nodes choose todo i store = .ok store1) :
    pods1 = pods ++ [storedControllerPod rsName s c]
    ∧ (storedControllerPod rsName s c).Status = PodPending
    ∧ (storedControllerPod rsName s c).NodeName = ""
    ∧ ∀ p ∈ store1, p ∈ store ∨ p.Status = PodScheduled := by
  refine ⟨?_, rfl, rfl,
    bindLoop_mem_scheduled nodes choose todo i store store1 hb⟩
  unfold createPod at hc
  split at hc
  · cases hc
  · have hdef : (if (mkControllerPod rsName s c).Status = "" then
        { mkControllerPod rsName s c with Status := PodPending }
      else mkControllerPod rsName s c) = storedControllerPod rsName s c := by
      simp [mkControllerPod, storedControllerPod]
    rw [hdef] at hc
    have hc1 : (if validatePod (storedControllerPod rsName s c) = true then
          Except.ok (pods ++ [storedControllerPod rsName s c])
        else (Except.error RegError.invalid : Except RegError (List Pod)))
        = Except.ok pods1 := hc
    split at hc1
    · injection hc1 with h
      exact h.symm
    · cases hc1

theorem invariant_holds_for_controller_and_scheduler_witness :
    [storedControllerPod "rs" "abcde" c7c]
        = [] ++ [storedControllerPod "rs" "abcde" c7c]
    ∧ (storedControllerPod "rs" "abcde" c7c).Status = PodPending
    ∧ (storedControllerPod "rs" "abcde" c7c).NodeName = ""
    ∧ ∀ p ∈ [boundPod4], p ∈ [pendingPod4] ∨ p.Status = PodScheduled :=
  invariant_holds_for_controller_and_scheduler
    [] [storedControllerPod "rs" "abcde" c7c] "rs" "abcde" c7c
    [node4] (fun _ => 0) [pendingPod4] 0 [pendingPod4] [boundPod4]
    rfl rfl

theorem pickNode_mem (nodes : List Node) (h : nodes ≠ []) (k : Nat) :
    pickNode nodes k ∈ nodes := by
  unfold pickNode
  have hlt : k % nodes.length < nodes.length :=
    Nat.mod_lt _ (List.length_pos.mpr h)
  rw [List.getD_eq_getElem?_getD, List.getElem?_eq_getElem hlt]
  simp only [Option.getD_some]
  exact List.getElem_mem hlt

theorem mem_putPodByName_self (pods : List Pod) (q : Pod) :
    q ∈ putPodByName pods q := by
  induction pods with
  | nil => simp [putPodByName]
  | cons p rest ih =>
      simp only [putPodByName]
      split
      · exact List.mem_cons_self _ _
      · exact List.mem_cons_of_mem _ ih

theorem mem_putPodByName_of_ne :
    ∀ {pods : List Pod} {q r : Pod},
      r ∈ pods → r.Meta.Name ≠ q.Meta.Name → r ∈ putPodByName pods q := by
  intro pods
  induction pods with
  | nil => intro q r hr _; simp at hr
  | cons p rest ih =>
      intro q r hr hne
      simp only [putPodByName]
      rcases List.mem_cons.mp hr with h | h
      · subst h
        rw [if_neg (by simpa using hne)]
        exact List.mem_cons_self _ _
      · split
        · exact List.mem_cons_of_mem _ h
        · exact List.mem_cons_of_mem _ (ih h hne)

theorem bindLoop_ok (nodes : List Node) (choose : Nat → Nat)
    (hnodes : nodes ≠ []) :
    ∀ (todo : List Pod) (i : Nat) (store : List Pod),
      (∀ p ∈ todo, validatePod p = true) →
      (todo.map fun p => p.Meta.Name).Nodup →
      ∃ store1, bindLoop nodes choose todo i store = .ok store1
        ∧ (∀ p ∈ todo, ∃ q ∈ store1, q.Meta.Name = p.Meta.Name
            ∧ q.Status = PodScheduled
            ∧ ∃ nd ∈ nodes, q.NodeName = nd.Meta.Name)
        ∧ (∀ r ∈ store, (r.Meta.Name ∉ todo.map fun p => p.Meta.Name) →
            r ∈ store1) := by
  intro todo
  induction todo with
  | nil =>
      intro i store _ _
      exact ⟨store, rfl, by simp, fun r hr _ => hr⟩
  | cons pod rest ih =>
      intro i store hv hnd
      have hvb : validatePod { pod with
          NodeName := (pickNode nodes (choose i)).Meta.Name,
          Status := PodScheduled } = true :=
        hv pod (List.mem_cons_self _ _)
      rw [List.map_cons, List.nodup_cons] at hnd
      have hnd0 := hnd
      obtain ⟨store1, hrun, hsched, hkeep⟩ := ih (i + 1)
        (putPodByName store { pod with
          NodeName := (pickNode nodes (choose i)).Meta.Name,
          Status := PodScheduled })
        (fun p hp => hv p (List.mem_cons_of_mem _ hp)) hnd0.2
      refine ⟨store1, ?_, ?_, ?_⟩
      · simp only [bindLoop, updatePod, hvb, if_true]
        exact hrun
      · intro p hp
        rcases List.mem_cons.mp hp with h | h
        · subst h
          refine ⟨{ p with
              NodeName := (pickNode nodes (choose i)).Meta.Name,
              Status := PodScheduled }, ?_, rfl, rfl,
            pickNode nodes (choose i), pickNode_mem nodes hnodes (choose i),
            rfl⟩
          exact hkeep _ (mem_putPodByName_self _ _) hnd0.1
        · exact hsched p h
      · intro r hr hnot
        simp only [List.map_cons, List.mem_cons, not_or] at hnot
        exact hkeep r (mem_putPodByName_of_ne hr hnot.1) hnot.2

/-- C4: when at least one node is listed, one scheduler pass succeeds and
every pod it saw as Pending ends up stored as Scheduled with its nodeName
equal to some listed node's name; pods whose status is not Pending are
left in the store untouched (never re-bound). -/
theorem scheduler_binds_every_pending (choose : Nat → Nat) (w : World)
    (hnodes : w.nodes ≠ [])
    (hnd : (w.pods.map fun p => p.Meta.Name).Nodup)
    (hv : ∀ p ∈ w.pods, p.Status = PodPending → validatePod p = true) :
    ∃ w1, schedulePendingPods choose w = .ok w1
      ∧ (∀ p ∈ w.pods, p.Status = PodPending →
          ∃ q ∈ w1.pods, q.Meta.Name = p.Meta.Name ∧ q.Status = PodScheduled
            ∧ ∃ nd ∈ w.nodes, q.NodeName = nd.Meta.Name)
      ∧ ∀ p ∈ w.pods, p.Status ≠ PodPending → p ∈ w1.pods := by
  have hpend_mem : ∀ p : Pod,
      p ∈ ListPendingPods w.pods ↔ p ∈ w.pods ∧ p.Status = PodPending := by
    intro p
    simp [ListPendingPods, listPodsByStatus, List.mem_filter]
  have hnd1 : ((ListPendingPods w.pods).map fun p => p.Meta.Name).Nodup := by
    refine List.Nodup.sublist ?_ hnd
    exact (List.filter_sublist _).map _
  obtain ⟨store1, hrun, hsched, hkeep⟩ := bindLoop_ok w.nodes choose hnodes
    (ListPendingPods w.pods) 0 w.pods
    (fun p hp => hv p ((hpend_mem p).mp hp).1 ((hpend_mem p).mp hp).2) hnd1
  have hlen : ¬ w.nodes.length = 0 := by
    simpa [List.length_eq_zero] using hnodes
  refine ⟨{ w with pods := store1 }, ?_, ?_, ?_⟩
  · simp only [schedulePendingPods]
    rw [if_neg hlen, hrun]
  · intro p hp hpend
    exact hsched p ((hpend_mem p).mpr ⟨hp, hpend⟩)
  · intro p hp hnp
    apply hkeep p hp
    intro hmem
    simp only [List.mem_map] at hmem
    obtain ⟨q, hq, hqname⟩ := hmem
    obtain ⟨hqp, hqpend⟩ := (hpend_mem q).mp hq
    have hqe : q = p := List.inj_on_of_nodup_map hnd hqp hp hqname
    exact hnp (hqe ▸ hqpend)

theorem scheduler_binds_every_pending_witness :
    ∃ w1, schedulePendingPods (fun _ => 0) world4 = .ok w1
      ∧ (∀ p ∈ world4.pods, p.Status = PodPending →
          ∃ q ∈ w1.pods, q.Meta.Name = p.Meta.Name ∧ q.Status = PodScheduled
            ∧ ∃ nd ∈ world4.nodes, q.NodeName = nd.Meta.Name)
      ∧ ∀ p ∈ world4.pods, p.Status ≠ PodPending → p ∈ w1.pods :=
  scheduler_binds_every_pending (fun _ => 0) world4
    (by decide) (by decide) (by decide)

/-! ## Name generator lemmas -/

theorem stringAux_chars (r : Nat → Nat) :
    ∀ (fuel k draw cur remaining : Nat) (acc out : List Char),
      stringAux r fuel k draw cur remaining acc = some out →
      out.length = k + acc.length
        ∧ ∀ ch ∈ out, ch ∈ alphanums.toList ∨ ch ∈ acc := by
  intro fuel
  induction fuel with
  | zero =>
      intro k draw cur remaining acc out h
      simp [stringAux] at h
  | succ fuel ih =>
      intro k draw cur remaining acc out h
      rw [stringAux] at h
      by_cases hk : k = 0
      · rw [if_pos hk] at h
        injection h with h
        subst h
        subst hk
        refine ⟨by simp, fun ch hch => Or.inr (List.mem_reverse.mp hch)⟩
      · rw [if_neg hk] at h
        by_cases hrem : remaining = 0
        · rw [if_pos hrem] at h
          split at h
          · obtain ⟨hlen, hmem⟩ := ih _ _ _ _ _ _ h
            refine ⟨by simp at hlen; omega, fun ch hch => ?_⟩
            rcases hmem ch hch with h1 | h1
            · exact Or.inl h1
            · rcases List.mem_cons.mp h1 with h2 | h2
              · exact Or.inl (h2 ▸ List.get_mem _ _ _)
              · exact Or.inr h2
          · obtain ⟨hlen, hmem⟩ := ih _ _ _ _ _ _ h
            exact ⟨hlen, hmem⟩
        · rw [if_neg hrem] at h
          split at h
          · obtain ⟨hlen, hmem⟩ := ih _ _ _ _ _ _ h
            refine ⟨by simp at hlen; omega, fun ch hch => ?_⟩
            rcases hmem ch hch with h1 | h1
            · exact Or.inl h1
            · rcases List.mem_cons.mp h1 with h2 | h2
              · exact Or.inl (h2 ▸ List.get_mem _ _ _)
              · exact Or.inr h2
          · obtain ⟨hlen, hmem⟩ := ih _ _ _ _ _ _ h
            exact ⟨hlen, hmem⟩

/-- C6: whenever `GenerateName` produces a name, that name is the base
truncated to at most 58 characters followed by a suffix of exactly 5
characters drawn from the vowel-free alphabet, and its total length is at
most 63. -/
theorem generateName_valid (r : Nat → Nat) (fuel : Nat) (base out : String)
    (h : GenerateName r fuel base = some out) :
    out.toList.length ≤ maxNameLength
    ∧ (truncateBase base.toList).length ≤ MaxGeneratedNameLength
    ∧ ∃ sfx : List Char, sfx.length = randomLength
        ∧ (∀ ch ∈ sfx, ch ∈ alphanums.toList)
        ∧ out.toList = truncateBase base.toList ++ sfx := by
  unfold GenerateName randString at h
  cases hs : stringAux r fuel randomLength 1 (r 0) maxAlphanumsPerInt [] with
  | none => rw [hs] at h; cases h
  | some sfxChars =>
      rw [hs] at h
      injection h with h
      obtain ⟨hlen, hmem⟩ := stringAux_chars r fuel randomLength 1 (r 0)
        maxAlphanumsPerInt [] sfxChars hs
      have hlen5 : sfxChars.length = randomLength := by simpa using hlen
      have htr : (truncateBase base.toList).length ≤ MaxGeneratedNameLength := by
        unfold truncateBase
        split
        · simp
        · omega
      have hout : out.toList = truncateBase base.toList ++ sfxChars := by
        rw [← h]
        rfl
      refine ⟨?_, htr, sfxChars, hlen5,
        fun ch hch => (hmem ch hch).resolve_right (by simp), hout⟩
      rw [hout]
      simp only [List.length_append, hlen5]
      have : MaxGeneratedNameLength + randomLength = maxNameLength := by
        simp [MaxGeneratedNameLength, maxNameLength, randomLength]
      omega

theorem generateName_valid_witness :
    "examplebbbbb".toList.length ≤ maxNameLength
    ∧ (truncateBase "example".toList).length ≤ MaxGeneratedNameLength
    ∧ ∃ sfx : List Char, sfx.length = randomLength
        ∧ (∀ ch ∈ sfx, ch ∈ alphanums.toList)
        ∧ "examplebbbbb".toList = truncateBase "example".toList ++ sfx :=
  generateName_valid (fun _ => 0) 6 "example" "examplebbbbb" (by decide)

end GoKube
